import Mathlib

/-!
# A shallow embedding of the `punq` IoC container (`src/punq/__init__.py`, `src/punq/_compat.py`)

`punq` is a runtime dependency-injection container.  This file embeds its data
model and operations in Lean and proves properties of the resolution and
registration algorithms.

Modelling conventions:

* Python service keys become the inductive `Key`: a class (`Key.cls name`),
  a literal string key (`Key.str s`), a `typing.ForwardRef` placeholder
  (`Key.fref s`), and the generic-list marker `list[T]` (`Key.listOf k`).
* Python object identity is modelled with an explicit heap: building an
  instance allocates an `HObj` (builder tag plus the constructor-argument map)
  and yields `Val.obj id` where `id` is the heap index.  Two resolutions return
  "the identical instance" exactly when they return the same `Val.obj id`.
* Python `dict`s become insertion-ordered association lists with
  insert-or-overwrite (`dinsert`) and `dict.update` (`dictUpdate`) mirroring
  CPython semantics.
* The mutually recursive `Container._resolve_impl` / `Container._build_impl` /
  `Container.resolve_all` trio is embedded with an explicit fuel argument; the
  distinguished error `Err.fuel` stands for non-termination, never for any
  Python exception.
* Python `None` is `Val.noneV`; an optional argument that defaults to `None`
  (such as the `default` parameter of `_resolve_impl`) is an `Option Val`
  whose `none` covers both "not supplied" and "supplied as `None`", exactly
  the distinction `is not None` makes in the source.
* Exceptions become `Except Err` / an `Option Err` component of the result.
-/

namespace Punq

/-- Python-`dict` lookup on an insertion-ordered association list. -/
def dlookup {κ α : Type} [DecidableEq κ] : List (κ × α) → κ → Option α
  | [], _ => none
  | (k', v) :: rest, k => if k' = k then some v else dlookup rest k

/-- Python-`dict` single-entry assignment `d[k] = v`: overwrite in place if the
key is present (keeping its position), else append at the end. -/
def dinsert {κ α : Type} [DecidableEq κ] : List (κ × α) → κ → α →
    List (κ × α)
  | [], k, v => [(k, v)]
  | (k', w) :: rest, k, v =>
      if k' = k then (k', v) :: rest else (k', w) :: dinsert rest k v

/-- Python `d.update(u)`: assign every entry of `u` into `d`, in order. -/
def dictUpdate {κ α : Type} [DecidableEq κ] (d u : List (κ × α)) :
    List (κ × α) :=
  u.foldl (fun acc p => dinsert acc p.1 p.2) d

/-- Service keys (`service` arguments in the source): a class, a literal
string, a `typing.ForwardRef`, or the `list[T]` generic marker. -/
inductive Key where
  | cls (name : String)
  | str (s : String)
  | fref (s : String)
  | listOf (k : Key)
deriving DecidableEq, Repr

/-- `inspect.isclass` on a service key: true only for class keys. -/
def isClass : Key → Bool
  | .cls _ => true
  | _ => false

/-- The key under which every container registers itself
(`self.register(Container, instance=self)`). -/
def containerKey : Key := Key.cls "Container"

/-- `punq.Scope`: lifetime of resolved objects. -/
inductive Scope where
  | transient
  | singleton
deriving DecidableEq, Repr

/-- Python runtime values as observed by the container: a reference to a heap
object, an opaque primitive, a list (the result of resolving `list[T]`),
a `Container` reference, or `None`. -/
inductive Val where
  | obj (id : Nat)
  | prim (n : Nat)
  | listV (vs : List Val)
  | containerV
  | noneV
deriving Repr

/-- `v is None` in Python. -/
def Val.isNone : Val → Bool
  | .noneV => true
  | _ => false

/-- A constructed Python object: the tag of the builder that produced it and
the keyword arguments it was constructed with. -/
structure HObj where
  tag : String
  fields : List (String × Val)
deriving Repr

/-- The part of `inspect.getfullargspec` that `_build_impl` and
`_match_defaults` consume: positional parameter names, keyword-only parameter
names, the tuple of trailing positional defaults, and the keyword-only
defaults dict.  Defaults may be Python `None` (`Val.noneV`). -/
structure FullArgSpec where
  args : List String
  kwonlyargs : List String
  defaults : Option (List Val)
  kwonlydefaults : Option (List (String × Val))
deriving Repr

/-- A raw `__init__` annotation: either an already-resolved key or a string
annotation (a forward reference) that `typing.get_type_hints` must evaluate
against the registry's `_localns`. -/
inductive Annot where
  | key (k : Key)
  | fwd (s : String)
deriving Repr

/-- A Python class definition as seen by introspection: the
`getfullargspec` of its `__init__` (including the `self` parameter) and the
raw annotations of its `__init__`. -/
structure ClassDef where
  spec : FullArgSpec
  hints : List (String × Annot)

/-- The ambient Python environment: every class name denotes a class. -/
abbrev Env : Type := String → ClassDef

/-- A builder (`_Registration.builder`): a class used as implementation,
a factory function (carrying its own argspec), or a constant-returning
closure (`lambda: instance`, whose argspec is empty). -/
inductive Builder where
  | cls (name : String)
  | func (tag : String) (spec : FullArgSpec)
  | const (v : Val)
deriving Repr

/-- `inspect.getfullargspec(registration.builder)`. -/
def getfullargspec (env : Env) : Builder → FullArgSpec
  | .cls n => (env n).spec
  | .func _ s => s
  | .const _ => ⟨[], [], none, none⟩

/-- `registration.builder(**args)`: classes and factory functions allocate a
fresh object on the heap tagged with the class/factory name and remembering
the arguments; a constant closure returns its captured value. -/
def invokeBuilder (heap : List HObj) : Builder → List (String × Val) →
    Val × List HObj
  | .cls n, args => (Val.obj heap.length, heap ++ [⟨n, args⟩])
  | .func t _, args => (Val.obj heap.length, heap ++ [⟨t, args⟩])
  | .const v, _ => (v, heap)

/-- `_Registration`: one stored way to satisfy a service key. -/
structure Registration where
  service : Key
  scope : Scope
  builder : Builder
  needs : List (String × Key)
  args : List (String × Val)
deriving Repr

/-- One frame of `RegistrationScope`: the `entries`
`defaultdict[service, list[implementation]]` of a single scope. -/
abbrev Frame : Type := List (Key × List Registration)

/-- `RegistrationScope`, the parent-linked chain of scopes, as the list of
frames from the current scope (head) up through its ancestors (tail). -/
abbrev RegistrationScope : Type := List Frame

namespace RegistrationScope

/-- A fresh root scope (`RegistrationScope()` with no parent). -/
def root : RegistrationScope := [[]]

/-- `RegistrationScope.child`: a new empty scope whose parent is `s`. -/
def child (s : RegistrationScope) : RegistrationScope := [] :: s

/-- `self.entries[key].append(value)` on the current (head) frame:
`entries` is a `defaultdict(list)`. -/
def frameAppend (f : Frame) (k : Key) (r : Registration) : Frame :=
  if (dlookup f k).isSome then
    f.map (fun p => if p.1 = k then (p.1, p.2 ++ [r]) else p)
  else f ++ [(k, [r])]

/-- `RegistrationScope.append`: append a registration for `k` in the current
scope; ancestor frames are untouched. -/
def append (s : RegistrationScope) (k : Key) (r : Registration) :
    RegistrationScope :=
  match s with
  | [] => [[(k, [r])]]
  | f :: rest => frameAppend f k r :: rest

/-- `RegistrationScope.get`: parent entries first (recursively), then this
scope's own entries; a fresh list, empty if the key was never registered. -/
def get (s : RegistrationScope) (k : Key) : List Registration :=
  match s with
  | [] => []
  | f :: rest => get rest k ++ (dlookup f k).getD []

end RegistrationScope

/-- Errors raised by the embedded code.  `fuel` is the out-of-fuel marker of
the embedding (never a Python exception). -/
inductive Err where
  | missingDependency (k : Key)
  | invalidForwardReference (name : String)
  | invalidRegistration
  | typeError
  | fuel
deriving DecidableEq, Repr

/-- `_ResolutionContext`: per-call targets (`key -> remaining candidate
stack`) and the per-call instance cache. -/
structure Ctx where
  targets : List (Key × List Registration)
  cache : List (Key × Val)
  service : Key
deriving Repr

/-- The mutable state visible to the engine: the container's registration
store and `_localns` (both owned by its `_Registry`), its persistent
singleton cache, its auto-registration flag, and the Python object heap. -/
structure St where
  store : RegistrationScope
  localns : List (String × Key)
  singletons : List (Key × Val)
  auto : Bool
  heap : List HObj

/-- `_Registry.build_context(key, existing)`: a fresh context when `existing`
is `None`, else `existing` with a target for `key` materialized from the
store if not already present. -/
def buildContext (store : RegistrationScope) (key : Key) :
    Option Ctx → Ctx
  | none => { targets := [(key, store.get key)], cache := [], service := key }
  | some ctx =>
      if (dlookup ctx.targets key).isSome then ctx
      else { ctx with targets := ctx.targets ++ [(key, store.get key)] }

/-- `_ResolutionTarget.next_impl`: pop and return the last element of the
candidate list, or `None` when it is empty. -/
def popLast {α : Type} : List α → Option α × List α
  | [] => (none, [])
  | [x] => (some x, [])
  | x :: y :: xs =>
      let (r, rest) := popLast (y :: xs)
      (r, x :: rest)

/-- Python `list.remove(s)` guarded by `if s in l` (drop the first
occurrence, keep the list unchanged if absent). -/
def removeFirst : List String → String → List String
  | [], _ => []
  | x :: xs, s => if x = s then xs else x :: removeFirst xs s

/-- `_match_defaults(spec)`: match positional parameters with their trailing
defaults by position (dropping entries whose default is `None`), then merge
the keyword-only defaults dict on top. -/
def match_defaults (spec : FullArgSpec) : List (String × Val) :=
  let ns : List (String × Val) :=
    match spec.defaults with
    | none => []
    | some ds =>
        let offset := spec.args.length - ds.length
        let defaults := List.replicate offset Val.noneV ++ ds
        (spec.args.zip defaults).filter (fun p => !p.2.isNone)
  match spec.kwonlydefaults with
  | none => ns
  | some kd => dictUpdate ns kd

/-- `args.get(k)` followed by the `is not None` test made on the `default`
parameter of `_resolve_impl`: both a missing entry and a stored `None`
behave as "no default". -/
def pyGet (d : List (String × Val)) (k : String) : Option Val :=
  match dlookup d k with
  | some v => if v.isNone then none else some v
  | none => none

/-- `typing.get_type_hints` evaluation of one annotation against `_localns`:
a real key passes through; a string annotation resolves to the class recorded
under that name, to a `ForwardRef` when the name maps to a literal string key
(evaluating the name yields the string itself, which `typing` wraps back into
a `ForwardRef`), and raises `NameError` (carrying the name) when unknown. -/
def evalAnnot (localns : List (String × Key)) : Annot → Except String Key
  | .key k => .ok k
  | .fwd s =>
      match dlookup localns s with
      | some (Key.str t) => .ok (Key.fref t)
      | some k => .ok k
      | none => .error s

/-- Evaluate a list of raw annotations in order, stopping at the first
`NameError`. -/
def evalHints (localns : List (String × Key)) :
    List (String × Annot) → Except String (List (String × Key))
  | [] => .ok []
  | (n, a) :: rest =>
      match evalAnnot localns a with
      | .error s => .error s
      | .ok k =>
          match evalHints localns rest with
          | .error s => .error s
          | .ok ks => .ok ((n, k) :: ks)

/-- `_Registry._get_needs_for_ctor(cls)`: `get_type_hints(cls.__init__, None,
self._localns)`, converting a `NameError` into `InvalidForwardReferenceError`. -/
def getNeedsForCtor (env : Env) (localns : List (String × Key))
    (cname : String) : Except Err (List (String × Key)) :=
  match evalHints localns (env cname).hints with
  | .ok ns => .ok ns
  | .error s => .error (.invalidForwardReference s)

/-- `_get_needs_for_ctor(impl)` for a general builder: classes are
introspected through their `__init__` annotations; for a plain function or
closure, `get_type_hints(f.__init__, ...)` inspects the method wrapper
`object.__init__`, which has no annotations, so the needs are empty. -/
def needsForImpl (env : Env) (localns : List (String × Key)) :
    Builder → Except Err (List (String × Key))
  | .cls n => getNeedsForCtor env localns n
  | .func _ _ => .ok []
  | .const _ => .ok []

/-- `_Registry._update_localns`: record the name of a class key, or a literal
string key, in the forward-reference name table.  Non-string, non-class keys
(a `ForwardRef`, a `list[T]` marker) are stored under a non-identifier dict
key that annotation evaluation can never see, hence a no-op here. -/
def updateLocalns (localns : List (String × Key)) : Key →
    List (String × Key)
  | .cls n => dinsert localns n (.cls n)
  | .str s => dinsert localns s (.str s)
  | _ => localns

/-- `_Registry.register_service_and_instance`: a singleton registration whose
builder is the constant closure `lambda: instance`, with empty needs and
args. -/
def registerServiceAndInstance (st : St) (service : Key) (inst : Val) :
    St :=
  { st with store :=
      st.store.append service ⟨service, .singleton, .const inst, [], []⟩ }

/-- `_Registry.register_concrete_service`: the service must be a class (else
`InvalidSelfRegistrationError`, a subclass of `InvalidRegistrationError`);
its needs are introspected, then the registration is appended with the class
itself as the builder. -/
def registerConcreteService (env : Env) (st : St) (service : Key)
    (scope : Scope) (resolveArgs : List (String × Val)) : Except Err St :=
  match service with
  | .cls n =>
      match getNeedsForCtor env st.localns n with
      | .error e => .error e
      | .ok needs =>
          .ok { st with
            store := st.store.append service
              ⟨service, scope, .cls n, needs, resolveArgs⟩ }
  | _ => .error .invalidRegistration

/-- `_Registry.register_service_and_impl`: introspect the implementation's
needs, then append the registration. -/
def registerServiceAndImpl (env : Env) (st : St) (service : Key)
    (scope : Scope) (impl : Builder) (resolveArgs : List (String × Val)) :
    Except Err St :=
  match needsForImpl env st.localns impl with
  | .error e => .error e
  | .ok needs =>
      .ok { st with
        store := st.store.append service
          ⟨service, scope, impl, needs, resolveArgs⟩ }

/-- Number of required positional parameters of `_compat.ensure_forward_ref`:
`(self, service, frame, factory, instance)`. -/
def ensureForwardRefParams : Nat := 5

/-- Number of positional arguments supplied by its only call site,
`_Registry.register`: `ensure_forward_ref(self, service, factory, instance,
**kwargs)` (the keyword arguments are resolve-args and do not bind
`instance`). -/
def ensureForwardRefCallArgs : Nat := 4

/-- The call `ensure_forward_ref(self, service, factory, instance, **kwargs)`
made at the end of `_Registry.register`.  Binding four positional arguments
to a function with five required positional parameters raises `TypeError`
before the body runs, so the body (which would register a `ForwardRef`-keyed
copy of a string-keyed registration) is unreachable. -/
def ensureForwardRefCall (st : St) : St × Option Err :=
  if ensureForwardRefCallArgs < ensureForwardRefParams then
    (st, some .typeError)
  else
    (st, none)

/-- `_Registry.register` (the body of `Container.register`): dispatch on
`instance` / `factory`, then `_update_localns`, then the
`ensure_forward_ref` call.  The returned state reflects every mutation made
before a raise; the `Option Err` component is the exception propagated to the
caller, if any. -/
def containerRegister (env : Env) (st : St) (service : Key)
    (factory : Option Builder) (inst : Option Val) (scope : Scope)
    (kwargs : List (String × Val)) : St × Option Err :=
  let step :=
    match inst with
    | some v => Except.ok (registerServiceAndInstance st service v)
    | none =>
        match factory with
        | none => registerConcreteService env st service scope kwargs
        | some f => registerServiceAndImpl env st service scope f kwargs
  match step with
  | .error e => (st, some e)
  | .ok st1 =>
      let st2 := { st1 with localns := updateLocalns st1.localns service }
      ensureForwardRefCall st2

/-- `Container.__init__`: build the registry (a root scope, or a child scope
of the parent container's store, with a fresh empty `_localns`), then
`self.register(Container, instance=self)`.  If that call raises, construction
fails and no container object is produced. -/
def containerInit (env : Env) (parent : Option St) (auto : Bool) :
    Except Err St :=
  let st0 : St :=
    { store :=
        match parent with
        | none => RegistrationScope.root
        | some p => p.store.child
      localns := []
      singletons := []
      auto := auto
      heap := match parent with | none => [] | some p => p.heap }
  match containerRegister env st0 containerKey none (some .containerV)
      .transient [] with
  | (_, some e) => .error e
  | (st1, none) => .ok st1

mutual

/-- `Container._resolve_impl(service_key, kwargs, context, default)`.
Materialize the context/target, serve a singleton, then the per-call cache,
then dispatch: a `list[T]` key re-enters `resolve_all` (without `kwargs`,
with a fresh context); otherwise pop the newest remaining candidate, falling
back to the supplied default, then to auto-registration (register the key as
a concrete transient registration in the current scope and retry once with a
fresh context), then to `MissingDependencyError`. -/
def resolveImpl (env : Env) :
    Nat → Key → List (String × Val) → Option Ctx → Option Val → St →
    Except Err (Val × Ctx × St)
  | 0, _, _, _, _, _ => .error .fuel
  | fuel+1, key, kwargs, octx, default, st =>
    let ctx := buildContext st.store key octx
    match dlookup st.singletons key with
    | some v => .ok (v, ctx, st)
    | none =>
      match dlookup ctx.cache key with
      | some v => .ok (v, ctx, st)
      | none =>
        match key with
        | .listOf elemKey =>
            (match resolveAllImpl env fuel elemKey [] st with
             | .error e => .error e
             | .ok (vs, _, st') => .ok (.listV vs, ctx, st'))
        | _ =>
          let impls := (dlookup ctx.targets key).getD []
          let pr := popLast impls
          let ctx1 := { ctx with targets := dinsert ctx.targets key pr.2 }
          match pr.1 with
          | some reg => buildImpl env fuel reg kwargs ctx1 st
          | none =>
            match default with
            | some d => .ok (d, ctx1, st)
            | none =>
              if st.auto && isClass key then
                match registerConcreteService env st key .transient [] with
                | .error e => .error e
                | .ok st1 =>
                  -- the source retries with the same `default`, which this
                  -- branch has already matched as `None`
                  match resolveImpl env fuel key kwargs none none st1 with
                  | .error e => .error e
                  | .ok (v, _, st2) => .ok (v, ctx1, st2)
              else .error (.missingDependency key)

/-- The argument-assembly half of `Container._build_impl` (everything before
`registration.builder(**args)` is invoked): defaults, then the recursively
resolved needs, then the registration-time static args, then the call-time
arguments restricted to the builder's own parameter names (with `self`
removed). -/
def buildArgsImpl (env : Env) :
    Nat → Registration → List (String × Val) → Ctx → St →
    Except Err (List (String × Val) × Ctx × St)
  | 0, _, _, _, _ => .error .fuel
  | fuel+1, reg, resolutionArgs, ctx, st =>
    let spec := getfullargspec env reg.builder
    let targetArgs := spec.args ++ spec.kwonlyargs
    let base := match_defaults spec
    match resolveNeeds env fuel reg.needs reg.args resolutionArgs base ctx st
        with
    | .error e => .error e
    | .ok (resolved, ctx1, st1) =>
      let args1 := dictUpdate base resolved
      let args2 := dictUpdate args1 reg.args
      let targetArgs1 := removeFirst targetArgs "self"
      let condensed :=
        resolutionArgs.filter (fun p => decide (p.1 ∈ targetArgs1))
      .ok (dictUpdate args2 condensed, ctx1, st1)

/-- The dict comprehension of `_build_impl`: resolve, in declaration order,
every needed dependency whose parameter name is not `"return"`, not a static
registration argument, and not a call-time argument, passing the parameter's
declared default (via `args.get(k)`) as the fallback. -/
def resolveNeeds (env : Env) :
    Nat → List (String × Key) → List (String × Val) → List (String × Val) →
    List (String × Val) → Ctx → St →
    Except Err (List (String × Val) × Ctx × St)
  | 0, _, _, _, _, _, _ => .error .fuel
  | _+1, [], _, _, _, ctx, st => .ok ([], ctx, st)
  | fuel+1, (name, depKey) :: rest, regArgs, resolutionArgs, base, ctx, st =>
    if name ≠ "return" ∧ (dlookup regArgs name).isNone = true ∧
        (dlookup resolutionArgs name).isNone = true then
      match resolveImpl env fuel depKey resolutionArgs (some ctx)
          (pyGet base name) st with
      | .error e => .error e
      | .ok (v, ctx1, st1) =>
        match resolveNeeds env fuel rest regArgs resolutionArgs base ctx1 st1
            with
        | .error e => .error e
        | .ok (vs, ctx2, st2) => .ok ((name, v) :: vs, ctx2, st2)
    else resolveNeeds env fuel rest regArgs resolutionArgs base ctx st

/-- `Container._build_impl(registration, resolution_args, context)`: assemble
the constructor arguments, invoke the builder, record a singleton-scoped
result in the container's singleton cache under the registration's service
key, and record the result in the per-call cache under that same key. -/
def buildImpl (env : Env) :
    Nat → Registration → List (String × Val) → Ctx → St →
    Except Err (Val × Ctx × St)
  | 0, _, _, _, _ => .error .fuel
  | fuel+1, reg, resolutionArgs, ctx, st =>
    match buildArgsImpl env fuel reg resolutionArgs ctx st with
    | .error e => .error e
    | .ok (args, ctx1, st1) =>
      let rh := invokeBuilder st1.heap reg.builder args
      let st2 := { st1 with heap := rh.2 }
      let st3 :=
        match reg.scope with
        | .singleton =>
            { st2 with singletons := dinsert st2.singletons reg.service rh.1 }
        | .transient => st2
      .ok (rh.1, { ctx1 with cache := dinsert ctx1.cache reg.service rh.1 },
           st3)

/-- `Container.resolve_all(service, **kwargs)`: open a fresh context for the
key and build every candidate registration, oldest first. -/
def resolveAllImpl (env : Env) :
    Nat → Key → List (String × Val) → St →
    Except Err (List Val × Ctx × St)
  | 0, _, _, _ => .error .fuel
  | fuel+1, key, kwargs, st =>
    let ctx := buildContext st.store key none
    resolveAllLoop env fuel key kwargs ctx st 0

/-- The list comprehension of `resolve_all`, iterating by live index over
`context.all_registrations(service)` (the target's candidate list inside the
context, which nested resolutions may mutate). -/
def resolveAllLoop (env : Env) :
    Nat → Key → List (String × Val) → Ctx → St → Nat →
    Except Err (List Val × Ctx × St)
  | 0, _, _, _, _, _ => .error .fuel
  | fuel+1, key, kwargs, ctx, st, i =>
    let impls := (dlookup ctx.targets key).getD []
    match impls[i]? with
    | none => .ok ([], ctx, st)
    | some reg =>
      match buildImpl env fuel reg kwargs ctx st with
      | .error e => .error e
      | .ok (v, ctx1, st1) =>
        match resolveAllLoop env fuel key kwargs ctx1 st1 (i+1) with
        | .error e => .error e
        | .ok (vs, ctx2, st2) => .ok (v :: vs, ctx2, st2)

end

/-- `Container.resolve(service_key, **kwargs)`: open a fresh context rooted
at the key and delegate to `_resolve_impl`. -/
def resolve (env : Env) (fuel : Nat) (key : Key)
    (kwargs : List (String × Val)) (st : St) : Except Err (Val × St) :=
  let context := buildContext st.store key none
  match resolveImpl env fuel key kwargs (some context) none st with
  | .error e => .error e
  | .ok (v, _, st') => .ok (v, st')

/-- `Container.resolve_all(service, **kwargs)` at the façade level. -/
def resolve_all (env : Env) (fuel : Nat) (key : Key)
    (kwargs : List (String × Val)) (st : St) : Except Err (List Val × St) :=
  match resolveAllImpl env fuel key kwargs st with
  | .error e => .error e
  | .ok (vs, _, st') => .ok (vs, st')

/-! ## Shared concrete material for the claim theorems -/

/-- A needs-free transient registration for `k` whose builder is a factory
tagged `t` (a class with a dependency-free constructor registered via a
factory, as in `register(Writer, WriterB)`). -/
def tagReg (k : Key) (t : String) : Registration :=
  ⟨k, .transient, .func t ⟨[], [], none, none⟩, [], []⟩

/-- An ambient environment in which every class has an annotation-free,
parameterless constructor. -/
def envEmpty : Env := fun _ => ⟨⟨["self"], [], none, none⟩, []⟩

/-- A container state holding exactly the registrations of `f` in a root
scope, with nothing built yet. -/
def stOf (f : Frame) : St := ⟨[f], [], [], false, []⟩

/-- A chain-of-responsibility registration for `k`: a filter class tagged `t`
whose constructor declares a `successor` parameter annotated with its own
service key `k`. -/
def chainReg (k : Key) (t : String) : Registration :=
  ⟨k, .transient, .func t ⟨["successor"], [], none, none⟩, [("successor", k)],
   []⟩

/-- The state of a child container derived from a container in state `st`
(`Container.child()` / `Container.__init__` with a parent registry): a child
scope chained onto the parent store with one extra registration already made
in it, a fresh empty `_localns`, a fresh empty singleton cache, the same
auto-registration flag, and the shared Python heap. -/
def childSt (st : St) (k : Key) (r : Registration) : St :=
  ⟨(RegistrationScope.child st.store).append k r, [], [], st.auto, st.heap⟩

/-- Environment for the forward-reference scenario: class `Client` declares
`dep: 'Dependency'` (a string annotation); every other class has a
dependency-free constructor. -/
def envC8 : Env := fun n =>
  if n = "Client" then
    ⟨⟨["self", "dep"], [], none, none⟩, [("dep", .fwd "Dependency")]⟩
  else ⟨⟨["self"], [], none, none⟩, []⟩

/-- The state after `register(Dependency)` on a fresh container state (the
call also raises `TypeError` from the `ensure_forward_ref` arity mismatch,
but its mutations to the store and the name table persist). -/
def stD8 : St :=
  (containerRegister envC8 (stOf []) (Key.cls "Dependency") none none
    .transient []).1

/-- The outcome of `register('Dependency', AlternativeDependency)` (a literal
string service key) on a fresh container state. -/
def regC9 : St × Option Err :=
  containerRegister envEmpty (stOf []) (Key.str "Dependency")
    (some (Builder.cls "AlternativeDependency")) none .transient []

/-- The candidate filter of `_build_impl`'s needs comprehension, as a
predicate on the needed parameter name: not `"return"`, not a static
registration argument, not a call-time argument. -/
def needsFilter (regArgs kwargs : List (String × Val)) (x : String) : Bool :=
  decide (x ≠ "return" ∧ (dlookup regArgs x).isNone = true ∧
    (dlookup kwargs x).isNone = true)

/-- A registration exercising every argument-assembly precedence level:
positional parameters `a b c d` (with declared defaults for `b c d`), a
keyword-only parameter `e` with a default, needs on `b c d`, a static
registration argument for `c`. -/
def regX : Registration :=
  ⟨Key.cls "X", .transient,
   .func "X" ⟨["a", "b", "c", "d"], ["e"],
     some [Val.prim 1, Val.prim 2, Val.prim 3], some [("e", Val.prim 4)]⟩,
   [("b", Key.cls "Dep"), ("c", Key.cls "Dep"), ("d", Key.cls "Dep")],
   [("c", Val.prim 30)]⟩

/-- Call-time arguments for the precedence scenario: an override for the
recognized parameter `d` and an unrelated name `zz`. -/
def kwX : List (String × Val) := [("d", Val.prim 40), ("zz", Val.prim 99)]

/-- Store for the precedence scenario: one needs-free registration for the
dependency key. -/
def stX : St := stOf [(Key.cls "Dep", [tagReg (Key.cls "Dep") "Dep"])]

/-- A context rooted at the precedence scenario's service key. -/
def ctxX : Ctx := ⟨[(Key.cls "X", [])], [], Key.cls "X"⟩

/-! ## Dictionary lemmas -/

theorem dlookup_dinsert {κ α : Type} [DecidableEq κ] (d : List (κ × α))
    (k x : κ) (v : α) :
    dlookup (dinsert d k v) x = if k = x then some v else dlookup d x := by
  induction d with
  | nil => simp [dinsert, dlookup]
  | cons p rest ih =>
      obtain ⟨k', w⟩ := p
      by_cases h : k' = k
      · subst h
        by_cases hx : k' = x <;> simp [dinsert, dlookup, hx]
      · by_cases hx : k' = x
        · subst hx
          have : k ≠ k' := fun hkk => h hkk.symm
          simp [dinsert, dlookup, h, this]
        · simp [dinsert, dlookup, h, hx, ih]

theorem dlookup_eq_none_of_not_mem {κ α : Type} [DecidableEq κ]
    (d : List (κ × α)) (x : κ) (h : x ∉ d.map Prod.fst) :
    dlookup d x = none := by
  induction d with
  | nil => rfl
  | cons p rest ih =>
      simp only [List.map_cons, List.mem_cons] at h
      push_neg at h
      have h1 : p.1 ≠ x := fun he => h.1 he.symm
      obtain ⟨k', w⟩ := p
      simp only [dlookup, if_neg h1]
      exact ih h.2

theorem dlookup_dictUpdate {κ α : Type} [DecidableEq κ] (u : List (κ × α))
    (hu : (u.map Prod.fst).Nodup) (d : List (κ × α)) (x : κ) :
    dlookup (dictUpdate d u) x =
      match dlookup u x with
      | some v => some v
      | none => dlookup d x := by
  induction u generalizing d with
  | nil => rfl
  | cons p u' ih =>
      obtain ⟨k, v⟩ := p
      simp only [List.map_cons, List.nodup_cons] at hu
      have step : dictUpdate d ((k, v) :: u') = dictUpdate (dinsert d k v) u' :=
        rfl
      rw [step, ih hu.2]
      by_cases hx : k = x
      · subst hx
        have : dlookup u' k = none :=
          dlookup_eq_none_of_not_mem u' k hu.1
        simp [dlookup, this, dlookup_dinsert]
      · simp [dlookup, hx, dlookup_dinsert]

theorem dlookup_filterKeys {κ α : Type} [DecidableEq κ] (u : List (κ × α))
    (q : κ → Bool) (x : κ) :
    dlookup (u.filter (fun p => q p.1)) x =
      if q x then dlookup u x else none := by
  induction u with
  | nil => by_cases hq : q x <;> simp [dlookup, hq]
  | cons p rest ih =>
      obtain ⟨k, v⟩ := p
      by_cases hk : k = x
      · subst hk
        by_cases hq : q k <;> simp [List.filter, dlookup, hq, ih]
      · by_cases hq : q k <;> simp [List.filter, dlookup, hq, hk, ih]

/-- One unfolding step of `RegistrationScope.get`: ancestors first, then the
head frame's own entries. -/
theorem RegistrationScope.get_cons (f : Frame) (s : RegistrationScope)
    (k : Key) :
    RegistrationScope.get (f :: s) k =
      RegistrationScope.get s k ++ (dlookup f k).getD [] := rfl

/-- Re-materializing a context for a key never touches its cache. -/
theorem buildContext_cache (s : RegistrationScope) (k : Key) (c : Ctx) :
    (buildContext s k (some c)).cache = c.cache := by
  simp only [buildContext]
  split <;> rfl

/-! ## Claim theorems -/

/-- **C1.** With two registrations for one key, added R1 then R2, `resolve`
builds and returns an instance of the most recently added registration (R2),
while `resolve_all` builds every registration in registration order, oldest
first: R1's instance (allocated first) precedes R2's. -/
theorem claim_C1 (env : Env) (cn t1 t2 : String) (st : St)
    (hsing : dlookup st.singletons (Key.cls cn) = none)
    (hstore : st.store.get (Key.cls cn) =
      [tagReg (Key.cls cn) t1, tagReg (Key.cls cn) t2]) :
    resolve env 8 (Key.cls cn) [] st =
      .ok (Val.obj st.heap.length,
           { st with heap := st.heap ++ [⟨t2, []⟩] }) ∧
    resolve_all env 8 (Key.cls cn) [] st =
      .ok ([Val.obj st.heap.length, Val.obj (st.heap.length + 1)],
           { st with heap := st.heap ++ [⟨t1, []⟩, ⟨t2, []⟩] }) := by
  constructor
  · simp [resolve, resolveImpl, buildImpl, buildArgsImpl, resolveNeeds,
      buildContext, hstore, hsing, dlookup, dinsert, popLast, tagReg,
      match_defaults, getfullargspec, invokeBuilder, removeFirst, dictUpdate]
  · simp [resolve_all, resolveAllImpl, resolveAllLoop, buildImpl,
      buildArgsImpl, resolveNeeds, buildContext, hstore, hsing, dlookup,
      dinsert, popLast, tagReg, match_defaults, getfullargspec,
      invokeBuilder, removeFirst, dictUpdate]

/-- **C1, witness.** The Writer example: `(Writer, WriterA)` then
`(Writer, WriterB)`; `resolve` yields the WriterB instance, `resolve_all`
yields the WriterA instance then the WriterB instance. -/
theorem claim_C1_witness :
    resolve envEmpty 8 (Key.cls "Writer") []
        (stOf [(Key.cls "Writer",
          [tagReg (Key.cls "Writer") "WriterA",
           tagReg (Key.cls "Writer") "WriterB"])]) =
      .ok (Val.obj 0,
        { stOf [(Key.cls "Writer",
            [tagReg (Key.cls "Writer") "WriterA",
             tagReg (Key.cls "Writer") "WriterB"])] with
          heap := [⟨"WriterB", []⟩] }) ∧
    resolve_all envEmpty 8 (Key.cls "Writer") []
        (stOf [(Key.cls "Writer",
          [tagReg (Key.cls "Writer") "WriterA",
           tagReg (Key.cls "Writer") "WriterB"])]) =
      .ok ([Val.obj 0, Val.obj 1],
        { stOf [(Key.cls "Writer",
            [tagReg (Key.cls "Writer") "WriterA",
             tagReg (Key.cls "Writer") "WriterB"])] with
          heap := [⟨"WriterA", []⟩, ⟨"WriterB", []⟩] }) :=
  claim_C1 envEmpty "Writer" "WriterA" "WriterB" _ rfl rfl

/-- **C3.** Registrations `NullFilter`, then `Is_C`, then `Is_B`, then `Is_A`
under one key, each of the latter three needing its own service key as
`successor`: `resolve` enters at the newest registration (`Is_A`) and each
self-referential resolution pops the next-older candidate from the call-local
stack, so `Is_A.successor` is the `Is_B` instance, `Is_B.successor` the
`Is_C` instance, `Is_C.successor` the `NullFilter` instance, and the chain
drains without error. -/
theorem claim_C3 (env : Env) (cn tN tC tB tA : String) (st : St)
    (hsing : dlookup st.singletons (Key.cls cn) = none)
    (hstore : st.store.get (Key.cls cn) =
      [tagReg (Key.cls cn) tN, chainReg (Key.cls cn) tC,
       chainReg (Key.cls cn) tB, chainReg (Key.cls cn) tA]) :
    resolve env 20 (Key.cls cn) [] st =
      .ok (Val.obj (st.heap.length + 3),
        { st with heap := st.heap ++
          [⟨tN, []⟩,
           ⟨tC, [("successor", Val.obj st.heap.length)]⟩,
           ⟨tB, [("successor", Val.obj (st.heap.length + 1))]⟩,
           ⟨tA, [("successor", Val.obj (st.heap.length + 2))]⟩] }) := by
  simp [resolve, resolveImpl, buildImpl, buildArgsImpl, resolveNeeds,
    buildContext, hstore, hsing, dlookup, dinsert, popLast, tagReg, chainReg,
    match_defaults, getfullargspec, invokeBuilder, removeFirst, dictUpdate,
    pyGet]

/-- **C3, witness.** The chain scenario at concrete names. -/
theorem claim_C3_witness :
    resolve envEmpty 20 (Key.cls "Filter") []
        (stOf [(Key.cls "Filter",
          [tagReg (Key.cls "Filter") "NullFilter",
           chainReg (Key.cls "Filter") "Is_C",
           chainReg (Key.cls "Filter") "Is_B",
           chainReg (Key.cls "Filter") "Is_A"])]) =
      .ok (Val.obj 3,
        { stOf [(Key.cls "Filter",
            [tagReg (Key.cls "Filter") "NullFilter",
             chainReg (Key.cls "Filter") "Is_C",
             chainReg (Key.cls "Filter") "Is_B",
             chainReg (Key.cls "Filter") "Is_A"])] with
          heap :=
            [⟨"NullFilter", []⟩,
             ⟨"Is_C", [("successor", Val.obj 0)]⟩,
             ⟨"Is_B", [("successor", Val.obj 1)]⟩,
             ⟨"Is_A", [("successor", Val.obj 2)]⟩] }) :=
  claim_C3 envEmpty "Filter" "NullFilter" "Is_C" "Is_B" "Is_A" _ rfl rfl

/-- **C4.** Within one top-level resolve, a key resolved again after its
first instance was fully built is served from the per-call context cache:
(i) whenever the context cache holds `v` for a key that has no singleton,
`_resolve_impl` returns `v` with the state (including the heap) unchanged —
no new build, even for a transient registration; (ii) end to end, a parent
whose two constructor parameters both need the same transient dependency
receives the identical instance twice, and the dependency is allocated only
once. -/
theorem claim_C4 (env : Env) (fuel : Nat) (key : Key)
    (kwargs : List (String × Val)) (ctx : Ctx) (st : St) (v : Val)
    (default : Option Val) (pn dn tp td : String) (st2 : St)
    (hsing : dlookup st.singletons key = none)
    (hcache : dlookup ctx.cache key = some v)
    (hne : pn ≠ dn)
    (hsingP : dlookup st2.singletons (Key.cls pn) = none)
    (hsingD : dlookup st2.singletons (Key.cls dn) = none)
    (hstoreP : st2.store.get (Key.cls pn) =
      [⟨Key.cls pn, .transient, .func tp ⟨["a", "b"], [], none, none⟩,
        [("a", Key.cls dn), ("b", Key.cls dn)], []⟩])
    (hstoreD : st2.store.get (Key.cls dn) = [tagReg (Key.cls dn) td]) :
    resolveImpl env (fuel + 1) key kwargs (some ctx) default st =
      .ok (v, buildContext st.store key (some ctx), st) ∧
    resolve env 12 (Key.cls pn) [] st2 =
      .ok (Val.obj (st2.heap.length + 1),
        { st2 with heap := st2.heap ++
          [⟨td, []⟩,
           ⟨tp, [("a", Val.obj st2.heap.length),
                 ("b", Val.obj st2.heap.length)]⟩] }) := by
  constructor
  · have hc : dlookup (buildContext st.store key (some ctx)).cache key =
        some v := by rw [buildContext_cache]; exact hcache
    simp [resolveImpl, hsing, hc]
  · simp [resolve, resolveImpl, buildImpl, buildArgsImpl, resolveNeeds,
      buildContext, hstoreP, hstoreD, hsingP, hsingD, hne, dlookup, dinsert,
      popLast, tagReg, match_defaults, getfullargspec, invokeBuilder,
      removeFirst, dictUpdate, pyGet]

/-- **C4, witness.** Concrete cache hit and concrete sibling deduplication. -/
theorem claim_C4_witness :
    resolveImpl envEmpty 1 (Key.cls "Dep") [] (some ⟨[], [(Key.cls "Dep", Val.obj 7)], Key.cls "Dep"⟩) none (stOf []) =
      .ok (Val.obj 7,
        buildContext (stOf []).store (Key.cls "Dep")
          (some ⟨[], [(Key.cls "Dep", Val.obj 7)], Key.cls "Dep"⟩),
        stOf []) ∧
    resolve envEmpty 12 (Key.cls "Parent") []
        (stOf [(Key.cls "Parent",
          [⟨Key.cls "Parent", .transient,
            .func "Parent" ⟨["a", "b"], [], none, none⟩,
            [("a", Key.cls "Dep"), ("b", Key.cls "Dep")], []⟩]),
          (Key.cls "Dep", [tagReg (Key.cls "Dep") "Dep"])]) =
      .ok (Val.obj 1,
        { stOf [(Key.cls "Parent",
            [⟨Key.cls "Parent", .transient,
              .func "Parent" ⟨["a", "b"], [], none, none⟩,
              [("a", Key.cls "Dep"), ("b", Key.cls "Dep")], []⟩]),
            (Key.cls "Dep", [tagReg (Key.cls "Dep") "Dep"])] with
          heap := [⟨"Dep", []⟩,
            ⟨"Parent", [("a", Val.obj 0), ("b", Val.obj 0)]⟩] }) :=
  claim_C4 envEmpty 0 (Key.cls "Dep") []
    ⟨[], [(Key.cls "Dep", Val.obj 7)], Key.cls "Dep"⟩ (stOf []) (Val.obj 7)
    none "Parent" "Dep" "Parent" "Dep" _ rfl rfl (by decide) rfl rfl rfl rfl

/-- **C5.** Singleton persistence: (i) when a key is in the container's
singleton cache, `_resolve_impl` returns the cached instance with the state
unchanged, before consulting the per-call cache or popping any candidate
(the context is only re-materialized, never drained, and the result is the
singleton even if the per-call cache holds something else); (ii) whenever
`_build_impl` succeeds on a singleton-scoped registration, the built instance
is stored in the singleton cache under the registration's service key;
(iii) end to end, the first resolve of a singleton-scoped key builds and
caches the instance and a second resolve on the resulting container state
returns the identical instance without allocating anything. -/
theorem claim_C5 (env : Env) (fuel : Nat) (key : Key)
    (kwargs : List (String × Val)) (octx : Option Ctx) (default : Option Val)
    (st : St) (v : Val) (reg : Registration)
    (kwargs2 : List (String × Val)) (ctx2 : Ctx) (stb : St) (w : Val)
    (ctx2' : Ctx) (stb' : St) (cn t : String) (st3 : St)
    (hsing : dlookup st.singletons key = some v)
    (hbuild : buildImpl env fuel reg kwargs2 ctx2 stb = .ok (w, ctx2', stb'))
    (hscope : reg.scope = .singleton)
    (hs3 : dlookup st3.singletons (Key.cls cn) = none)
    (hst3 : st3.store.get (Key.cls cn) =
      [⟨Key.cls cn, .singleton, .func t ⟨[], [], none, none⟩, [], []⟩]) :
    resolveImpl env (fuel + 1) key kwargs octx default st =
      .ok (v, buildContext st.store key octx, st) ∧
    dlookup stb'.singletons reg.service = some w ∧
    (resolve env 8 (Key.cls cn) [] st3 =
      .ok (Val.obj st3.heap.length,
        { st3 with
            singletons := dinsert st3.singletons (Key.cls cn)
              (Val.obj st3.heap.length),
            heap := st3.heap ++ [⟨t, []⟩] }) ∧
     resolve env 8 (Key.cls cn) []
        { st3 with
            singletons := dinsert st3.singletons (Key.cls cn)
              (Val.obj st3.heap.length),
            heap := st3.heap ++ [⟨t, []⟩] } =
      .ok (Val.obj st3.heap.length,
        { st3 with
            singletons := dinsert st3.singletons (Key.cls cn)
              (Val.obj st3.heap.length),
            heap := st3.heap ++ [⟨t, []⟩] })) := by
  refine ⟨by simp [resolveImpl, hsing], ?_, ?_, ?_⟩
  · cases fuel with
    | zero => exact absurd hbuild (by simp [buildImpl])
    | succ n =>
        simp only [buildImpl] at hbuild
        split at hbuild
        · exact absurd hbuild (by simp)
        · rw [hscope] at hbuild
          simp only [Except.ok.injEq, Prod.mk.injEq] at hbuild
          obtain ⟨hw, -, hst⟩ := hbuild
          rw [← hst, ← hw]
          simp [dlookup_dinsert]
  · simp [resolve, resolveImpl, buildImpl, buildArgsImpl, resolveNeeds,
      buildContext, hst3, hs3, dlookup, dinsert, popLast, match_defaults,
      getfullargspec, invokeBuilder, removeFirst, dictUpdate]
  · simp [resolve, resolveImpl, buildContext, dlookup_dinsert]

/-- **C5, witness.** A concrete singleton registration: the singleton cache
short-circuits resolution; a successful build records the instance; both
resolves of a singleton key return the identical object. -/
theorem claim_C5_witness :
    resolveImpl envEmpty 4 (Key.cls "S") [] none none
        ⟨[[]], [], [(Key.cls "S", Val.obj 9)], false, []⟩ =
      .ok (Val.obj 9, buildContext [[]] (Key.cls "S") none,
        ⟨[[]], [], [(Key.cls "S", Val.obj 9)], false, []⟩) ∧
    dlookup
      (⟨[[]], [], [(Key.cls "S", Val.obj 0)], false,
        [⟨"S", []⟩]⟩ : St).singletons
      (⟨Key.cls "S", .singleton, .func "S" ⟨[], [], none, none⟩, [],
        []⟩ : Registration).service = some (Val.obj 0) ∧
    (resolve envEmpty 8 (Key.cls "S") []
        (stOf [(Key.cls "S",
          [⟨Key.cls "S", .singleton, .func "S" ⟨[], [], none, none⟩, [],
            []⟩])]) =
      .ok (Val.obj 0,
        { stOf [(Key.cls "S",
            [⟨Key.cls "S", .singleton, .func "S" ⟨[], [], none, none⟩, [],
              []⟩])] with
            singletons := dinsert [] (Key.cls "S") (Val.obj 0),
            heap := [⟨"S", []⟩] }) ∧
     resolve envEmpty 8 (Key.cls "S") []
        { stOf [(Key.cls "S",
            [⟨Key.cls "S", .singleton, .func "S" ⟨[], [], none, none⟩, [],
              []⟩])] with
            singletons := dinsert [] (Key.cls "S") (Val.obj 0),
            heap := [⟨"S", []⟩] } =
      .ok (Val.obj 0,
        { stOf [(Key.cls "S",
            [⟨Key.cls "S", .singleton, .func "S" ⟨[], [], none, none⟩, [],
              []⟩])] with
            singletons := dinsert [] (Key.cls "S") (Val.obj 0),
            heap := [⟨"S", []⟩] })) :=
  claim_C5 envEmpty 3 (Key.cls "S") [] none none
    ⟨[[]], [], [(Key.cls "S", Val.obj 9)], false, []⟩ (Val.obj 9)
    ⟨Key.cls "S", .singleton, .func "S" ⟨[], [], none, none⟩, [], []⟩
    [] ⟨[(Key.cls "S", [])], [], Key.cls "S"⟩ (stOf []) (Val.obj 0)
    ⟨[(Key.cls "S", [])], [(Key.cls "S", Val.obj 0)], Key.cls "S"⟩
    ⟨[[]], [], [(Key.cls "S", Val.obj 0)], false, [⟨"S", []⟩]⟩
    "S" "S"
    (stOf [(Key.cls "S",
      [⟨Key.cls "S", .singleton, .func "S" ⟨[], [], none, none⟩, [], []⟩])])
    rfl rfl rfl rfl rfl

/-- **C6.** When no candidate remains for a key: (i) the caller-supplied
default (a non-`None` declared parameter default) is returned, with the state
unchanged; (ii) otherwise, with auto-registration enabled and a class key,
the key is registered as a fresh transient concrete registration in the
current scope and resolution of the same key is retried once with a fresh
context; (iii) otherwise `resolve` of an unregistered key with no default and
auto-registration disabled fails with `MissingDependencyError` naming the
key. -/
theorem claim_C6 (env : Env) (fuel : Nat) (cn : String)
    (kwargs : List (String × Val)) (ctx : Ctx) (st : St) (d : Val)
    (cm : String) (kwargs0 : List (String × Val)) (ctx0 : Ctx) (st0 : St)
    (ns : List (String × Key)) (km : Key)
    (kwargsm : List (String × Val)) (stm : St)
    (h1 : dlookup st.singletons (Key.cls cn) = none)
    (h2 : dlookup ctx.cache (Key.cls cn) = none)
    (h3 : dlookup ctx.targets (Key.cls cn) = some [])
    (h4 : dlookup st0.singletons (Key.cls cm) = none)
    (h5 : dlookup ctx0.cache (Key.cls cm) = none)
    (h6 : dlookup ctx0.targets (Key.cls cm) = some [])
    (h7 : st0.auto = true)
    (h8 : getNeedsForCtor env st0.localns cm = .ok ns)
    (h9 : ∀ e, km ≠ Key.listOf e)
    (h10 : dlookup stm.singletons km = none)
    (h11 : stm.store.get km = [])
    (h12 : stm.auto = false) :
    resolveImpl env (fuel + 1) (Key.cls cn) kwargs (some ctx) (some d) st =
      .ok (d, { ctx with targets := dinsert ctx.targets (Key.cls cn) [] },
        st) ∧
    resolveImpl env (fuel + 1) (Key.cls cm) kwargs0 (some ctx0) none st0 =
      (match resolveImpl env fuel (Key.cls cm) kwargs0 none none
          { st0 with
              store := st0.store.append (Key.cls cm)
                ⟨Key.cls cm, .transient, .cls cm, ns, []⟩ } with
       | .error e => .error e
       | .ok (v, _, st2) =>
           .ok (v,
             { ctx0 with targets := dinsert ctx0.targets (Key.cls cm) [] },
             st2)) ∧
    resolve env (fuel + 1) km kwargsm stm =
      .error (.missingDependency km) := by
  refine ⟨?_, ?_, ?_⟩
  · simp [resolveImpl, buildContext, h1, h2, h3, popLast]
  · simp [resolveImpl, buildContext, registerConcreteService, isClass,
      h4, h5, h6, h7, h8, popLast]
  · cases km with
    | listOf e => exact absurd rfl (h9 e)
    | cls n =>
        simp [resolve, resolveImpl, buildContext, h10, h11, h12, popLast,
          dlookup, dinsert, isClass]
    | str n =>
        simp [resolve, resolveImpl, buildContext, h10, h11, h12, popLast,
          dlookup, dinsert, isClass]
    | fref n =>
        simp [resolve, resolveImpl, buildContext, h10, h11, h12, popLast,
          dlookup, dinsert, isClass]

/-- **C6, witness.** Concrete default fallback, auto-registration retry, and
missing-dependency failure. -/
theorem claim_C6_witness :
    resolveImpl envEmpty 3 (Key.cls "D") [] (some ⟨[(Key.cls "D", [])], [],
        Key.cls "D"⟩) (some (Val.prim 5)) (stOf []) =
      .ok (Val.prim 5,
        { (⟨[(Key.cls "D", [])], [], Key.cls "D"⟩ : Ctx) with
            targets := dinsert [(Key.cls "D", [])] (Key.cls "D") [] },
        stOf []) ∧
    resolveImpl envEmpty 3 (Key.cls "A") [] (some ⟨[(Key.cls "A", [])], [],
        Key.cls "A"⟩) none ⟨[[]], [], [], true, []⟩ =
      (match resolveImpl envEmpty 2 (Key.cls "A") [] none none
          { (⟨[[]], [], [], true, []⟩ : St) with
              store := RegistrationScope.append [[]] (Key.cls "A")
                ⟨Key.cls "A", .transient, .cls "A", [], []⟩ } with
       | .error e => .error e
       | .ok (v, _, st2) =>
           .ok (v,
             { (⟨[(Key.cls "A", [])], [], Key.cls "A"⟩ : Ctx) with
                 targets := dinsert [(Key.cls "A", [])] (Key.cls "A") [] },
             st2)) ∧
    resolve envEmpty 3 (Key.cls "M") [] (stOf []) =
      .error (.missingDependency (Key.cls "M")) :=
  claim_C6 envEmpty 2 "D" [] ⟨[(Key.cls "D", [])], [], Key.cls "D"⟩
    (stOf []) (Val.prim 5) "A" [] ⟨[(Key.cls "A", [])], [], Key.cls "A"⟩
    ⟨[[]], [], [], true, []⟩ [] (Key.cls "M") [] (stOf [])
    rfl rfl rfl rfl rfl rfl rfl rfl (by intro e h; cases h) rfl rfl rfl

/-- **C7.** Child-scope isolation: (i) registering in a child scope only
prepends a new head frame — the parent chain is embedded untouched;
(ii) a child container that overrides a key registered in its parent
resolves its own (newer) registration; (iii) the parent container still
resolves its original registration; (iv) a key registered only in the parent
resolves in the child through the ancestor-first chained lookup. -/
theorem claim_C7 (env : Env) (cn cn2 t1 t2 t3 : String) (st : St)
    (hne : cn ≠ cn2)
    (hsing1 : dlookup st.singletons (Key.cls cn) = none)
    (hstore1 : st.store.get (Key.cls cn) = [tagReg (Key.cls cn) t1])
    (hstore2 : st.store.get (Key.cls cn2) = [tagReg (Key.cls cn2) t3]) :
    (RegistrationScope.child st.store).append (Key.cls cn)
        (tagReg (Key.cls cn) t2) =
      [(Key.cls cn, [tagReg (Key.cls cn) t2])] :: st.store ∧
    resolve env 8 (Key.cls cn) []
        (childSt st (Key.cls cn) (tagReg (Key.cls cn) t2)) =
      .ok (Val.obj st.heap.length,
        { childSt st (Key.cls cn) (tagReg (Key.cls cn) t2) with
            heap := st.heap ++ [⟨t2, []⟩] }) ∧
    resolve env 8 (Key.cls cn) [] st =
      .ok (Val.obj st.heap.length,
        { st with heap := st.heap ++ [⟨t1, []⟩] }) ∧
    resolve env 8 (Key.cls cn2) []
        (childSt st (Key.cls cn) (tagReg (Key.cls cn) t2)) =
      .ok (Val.obj st.heap.length,
        { childSt st (Key.cls cn) (tagReg (Key.cls cn) t2) with
            heap := st.heap ++ [⟨t3, []⟩] }) := by
  refine ⟨rfl, ?_, ?_, ?_⟩
  · simp [resolve, resolveImpl, buildImpl, buildArgsImpl, resolveNeeds,
      buildContext, childSt, RegistrationScope.child, RegistrationScope.append,
      RegistrationScope.frameAppend, RegistrationScope.get, hstore1, dlookup,
      dinsert, popLast, tagReg, match_defaults, getfullargspec, invokeBuilder,
      removeFirst, dictUpdate]
  · simp [resolve, resolveImpl, buildImpl, buildArgsImpl, resolveNeeds,
      buildContext, hstore1, hsing1, dlookup, dinsert, popLast, tagReg,
      match_defaults, getfullargspec, invokeBuilder, removeFirst, dictUpdate]
  · simp [resolve, resolveImpl, buildImpl, buildArgsImpl, resolveNeeds,
      buildContext, childSt, RegistrationScope.child, RegistrationScope.append,
      RegistrationScope.frameAppend, RegistrationScope.get, hstore2, hne,
      dlookup, dinsert, popLast, tagReg, match_defaults, getfullargspec,
      invokeBuilder, removeFirst, dictUpdate]

/-- **C7, witness.** A concrete parent with `Svc -> Old` and `Only -> Inh`;
the child overrides `Svc` with `New`. -/
theorem claim_C7_witness :
    (RegistrationScope.child (stOf [(Key.cls "Svc",
          [tagReg (Key.cls "Svc") "Old"]),
        (Key.cls "Only", [tagReg (Key.cls "Only") "Inh"])]).store).append
        (Key.cls "Svc") (tagReg (Key.cls "Svc") "New") =
      [(Key.cls "Svc", [tagReg (Key.cls "Svc") "New"])] ::
        (stOf [(Key.cls "Svc", [tagReg (Key.cls "Svc") "Old"]),
          (Key.cls "Only", [tagReg (Key.cls "Only") "Inh"])]).store ∧
    resolve envEmpty 8 (Key.cls "Svc") []
        (childSt (stOf [(Key.cls "Svc", [tagReg (Key.cls "Svc") "Old"]),
          (Key.cls "Only", [tagReg (Key.cls "Only") "Inh"])])
          (Key.cls "Svc") (tagReg (Key.cls "Svc") "New")) =
      .ok (Val.obj 0,
        { childSt (stOf [(Key.cls "Svc", [tagReg (Key.cls "Svc") "Old"]),
            (Key.cls "Only", [tagReg (Key.cls "Only") "Inh"])])
            (Key.cls "Svc") (tagReg (Key.cls "Svc") "New") with
            heap := [⟨"New", []⟩] }) ∧
    resolve envEmpty 8 (Key.cls "Svc") []
        (stOf [(Key.cls "Svc", [tagReg (Key.cls "Svc") "Old"]),
          (Key.cls "Only", [tagReg (Key.cls "Only") "Inh"])]) =
      .ok (Val.obj 0,
        { stOf [(Key.cls "Svc", [tagReg (Key.cls "Svc") "Old"]),
            (Key.cls "Only", [tagReg (Key.cls "Only") "Inh"])] with
            heap := [⟨"Old", []⟩] }) ∧
    resolve envEmpty 8 (Key.cls "Only") []
        (childSt (stOf [(Key.cls "Svc", [tagReg (Key.cls "Svc") "Old"]),
          (Key.cls "Only", [tagReg (Key.cls "Only") "Inh"])])
          (Key.cls "Svc") (tagReg (Key.cls "Svc") "New")) =
      .ok (Val.obj 0,
        { childSt (stOf [(Key.cls "Svc", [tagReg (Key.cls "Svc") "Old"]),
            (Key.cls "Only", [tagReg (Key.cls "Only") "Inh"])])
            (Key.cls "Svc") (tagReg (Key.cls "Svc") "New") with
            heap := [⟨"Inh", []⟩] }) :=
  claim_C7 envEmpty "Svc" "Only" "Old" "New" "Inh"
    (stOf [(Key.cls "Svc", [tagReg (Key.cls "Svc") "Old"]),
      (Key.cls "Only", [tagReg (Key.cls "Only") "Inh"])])
    (by decide) rfl rfl rfl

/-- The keys produced by the needs-resolution comprehension are exactly the
needed parameter names passing the `_build_impl` filter, in order. -/
theorem resolveNeeds_keys (env : Env) (needs : List (String × Key)) :
    ∀ (fuel : Nat) (regArgs kwargs base : List (String × Val)) (ctx : Ctx)
      (st : St) (resolved : List (String × Val)) (ctx' : Ctx) (st' : St),
    resolveNeeds env fuel needs regArgs kwargs base ctx st =
      .ok (resolved, ctx', st') →
    resolved.map Prod.fst =
      (needs.map Prod.fst).filter (needsFilter regArgs kwargs) := by
  induction needs with
  | nil =>
      intro fuel regArgs kwargs base ctx st resolved ctx' st' h
      cases fuel with
      | zero => simp [resolveNeeds] at h
      | succ n =>
          simp only [resolveNeeds, Except.ok.injEq, Prod.mk.injEq] at h
          obtain ⟨h1, -, -⟩ := h
          simp [← h1]
  | cons p rest ih =>
      intro fuel regArgs kwargs base ctx st resolved ctx' st' h
      obtain ⟨name, depKey⟩ := p
      cases fuel with
      | zero => simp [resolveNeeds] at h
      | succ n =>
          simp only [resolveNeeds] at h
          by_cases hc : name ≠ "return" ∧
              (dlookup regArgs name).isNone = true ∧
              (dlookup kwargs name).isNone = true
          · rw [if_pos hc] at h
            split at h
            · exact absurd h (by simp)
            · split at h
              · exact absurd h (by simp)
              · rename_i v ctx1 st1 heq vs ctx2 st2 heq2
                simp only [Except.ok.injEq, Prod.mk.injEq] at h
                obtain ⟨h1, -, -⟩ := h
                rw [← h1]
                have hcb : needsFilter regArgs kwargs name = true :=
                  decide_eq_true hc
                simp only [List.map_cons, List.filter_cons, hcb, if_true]
                rw [ih _ _ _ _ _ _ _ _ _ heq2]
          · rw [if_neg hc] at h
            have hcb : needsFilter regArgs kwargs name = false :=
              decide_eq_false hc
            simp only [List.map_cons, List.filter_cons, hcb, if_false]
            exact ih _ _ _ _ _ _ _ _ _ h

/-- **C2.** Final constructor arguments are assembled with precedence,
lowest to highest: declared parameter defaults, then recursively resolved
dependencies (exactly the needed names other than `return` that appear
neither in the registration's static args nor in the call-time kwargs, each
resolved with that parameter's default as fallback), then the registration's
static args, then the kwargs entries naming actual builder parameters;
kwargs entries that name no builder parameter are silently ignored by the
final overlay. -/
theorem claim_C2 (env : Env) (fuel : Nat) (reg : Registration)
    (kwargs : List (String × Val)) (ctx : Ctx) (st : St)
    (final : List (String × Val)) (ctx' : Ctx) (st' : St)
    (hkw : (kwargs.map Prod.fst).Nodup)
    (hargs : (reg.args.map Prod.fst).Nodup)
    (hneeds : (reg.needs.map Prod.fst).Nodup)
    (h : buildArgsImpl env (fuel + 1) reg kwargs ctx st =
      .ok (final, ctx', st')) :
    ∃ resolved,
      resolveNeeds env fuel reg.needs reg.args kwargs
          (match_defaults (getfullargspec env reg.builder)) ctx st =
        .ok (resolved, ctx', st') ∧
      resolved.map Prod.fst =
        (reg.needs.map Prod.fst).filter (needsFilter reg.args kwargs) ∧
      ∀ x, dlookup final x =
        if x ∈ removeFirst ((getfullargspec env reg.builder).args ++
              (getfullargspec env reg.builder).kwonlyargs) "self" ∧
            (dlookup kwargs x).isSome = true then dlookup kwargs x
        else if (dlookup reg.args x).isSome = true then dlookup reg.args x
        else if (dlookup resolved x).isSome = true then dlookup resolved x
        else dlookup (match_defaults (getfullargspec env reg.builder)) x
    := by
  simp only [buildArgsImpl] at h
  split at h
  · exact absurd h (by simp)
  · rename_i resolved ctx1 st1 heq
    simp only [Except.ok.injEq, Prod.mk.injEq] at h
    obtain ⟨hfin, hctx, hst⟩ := h
    subst hctx
    subst hst
    have hkeys := resolveNeeds_keys env reg.needs fuel reg.args kwargs
      (match_defaults (getfullargspec env reg.builder)) ctx st resolved
      _ _ heq
    refine ⟨resolved, heq, hkeys, ?_⟩
    intro x
    have hres : (resolved.map Prod.fst).Nodup := by
      rw [hkeys]; exact hneeds.filter _
    have hcond : ((kwargs.filter (fun p =>
        decide (p.1 ∈ removeFirst ((getfullargspec env reg.builder).args ++
          (getfullargspec env reg.builder).kwonlyargs) "self"))).map
        Prod.fst).Nodup :=
      hkw.sublist (List.Sublist.map _ (List.filter_sublist _))
    rw [← hfin]
    rw [dlookup_dictUpdate _ hcond, dlookup_dictUpdate _ hargs,
      dlookup_dictUpdate _ hres,
      dlookup_filterKeys kwargs
        (fun k => decide (k ∈ removeFirst ((getfullargspec env
          reg.builder).args ++ (getfullargspec env reg.builder).kwonlyargs)
          "self")) x]
    by_cases hp : x ∈ removeFirst ((getfullargspec env reg.builder).args ++
        (getfullargspec env reg.builder).kwonlyargs) "self"
    · cases hkx : dlookup kwargs x with
      | some v => simp [hp, hkx]
      | none =>
          cases hax : dlookup reg.args x with
          | some v => simp [hp, hkx, hax]
          | none =>
              cases hrx : dlookup resolved x with
              | some v => simp [hp, hkx, hax, hrx]
              | none => simp [hp, hkx, hax, hrx]
    · cases hkx : dlookup kwargs x with
      | some v =>
          cases hax : dlookup reg.args x with
          | some w => simp [hp, hkx, hax]
          | none =>
              cases hrx : dlookup resolved x with
              | some w => simp [hp, hkx, hax, hrx]
              | none => simp [hp, hkx, hax, hrx]
      | none =>
          cases hax : dlookup reg.args x with
          | some w => simp [hp, hkx, hax]
          | none =>
              cases hrx : dlookup resolved x with
              | some w => simp [hp, hkx, hax, hrx]
              | none => simp [hp, hkx, hax, hrx]

/-- **C2, witness.** The precedence scenario: `a` keeps no value (no default
survives), `b` gets the resolved dependency (beating its default), `c` keeps
the static registration argument (beating its default and suppressing
resolution), `d` keeps the call-time override (beating default, static args
and resolution), `e` keeps its keyword-only default, and the unrelated
call-time name `zz` is ignored. -/
theorem claim_C2_witness :
    ∃ resolved,
      resolveNeeds envEmpty 6 regX.needs regX.args kwX
          (match_defaults (getfullargspec envEmpty regX.builder)) ctxX stX =
        .ok (resolved,
          ⟨[(Key.cls "X", []), (Key.cls "Dep", [])],
           [(Key.cls "Dep", Val.obj 0)], Key.cls "X"⟩,
          { stX with heap := [⟨"Dep", []⟩] }) ∧
      resolved.map Prod.fst =
        (regX.needs.map Prod.fst).filter (needsFilter regX.args kwX) ∧
      ∀ x, dlookup [("b", Val.obj 0), ("c", Val.prim 30),
          ("d", Val.prim 40), ("e", Val.prim 4)] x =
        if x ∈ removeFirst ((getfullargspec envEmpty regX.builder).args ++
              (getfullargspec envEmpty regX.builder).kwonlyargs) "self" ∧
            (dlookup kwX x).isSome = true then dlookup kwX x
        else if (dlookup regX.args x).isSome = true then dlookup regX.args x
        else if (dlookup resolved x).isSome = true then dlookup resolved x
        else dlookup (match_defaults (getfullargspec envEmpty regX.builder))
          x :=
  claim_C2 envEmpty 6 regX kwX ctxX stX
    [("b", Val.obj 0), ("c", Val.prim 30), ("d", Val.prim 40),
     ("e", Val.prim 4)]
    ⟨[(Key.cls "X", []), (Key.cls "Dep", [])], [(Key.cls "Dep", Val.obj 0)],
     Key.cls "X"⟩
    { stX with heap := [⟨"Dep", []⟩] }
    (by decide) (by decide) (by decide) rfl

/-- **C8.** Forward-reference failure at registration time.  The first half
of the claim holds: registering `Client` (whose constructor annotation
`'Dependency'` is unresolvable in the name table) raises
`InvalidForwardReferenceError` naming the missing name and leaves the whole
registry state unchanged.  The second half fails on this code: registering
`Dependency` itself raises `TypeError` (the `ensure_forward_ref` call in
`_Registry.register` supplies four positional arguments to a function with
five required positional parameters), and retrying `register(Client)`
afterwards passes introspection and appends the registration but raises the
same `TypeError` instead of succeeding. -/
theorem claim_C8 :
    containerRegister envC8 (stOf []) (Key.cls "Client") none none
        .transient [] =
      (stOf [], some (Err.invalidForwardReference "Dependency")) ∧
    (containerRegister envC8 (stOf []) (Key.cls "Dependency") none none
        .transient []).2 = some Err.typeError ∧
    stD8.localns = [("Dependency", Key.cls "Dependency")] ∧
    (containerRegister envC8 stD8 (Key.cls "Client") none none
        .transient []).2 = some Err.typeError ∧
    (containerRegister envC8 stD8 (Key.cls "Client") none none
        .transient []).1.store.get (Key.cls "Client") =
      [⟨Key.cls "Client", .transient, .cls "Client",
        [("dep", Key.cls "Dependency")], []⟩] :=
  ⟨rfl, rfl, rfl, rfl, rfl⟩

/-- **C9.** Registering under a literal string service key.  On this code the
call does append the string-keyed registration and update the
forward-reference name table, but then raises `TypeError` (the
`ensure_forward_ref` call in `_Registry.register` binds four positional
arguments to five required positional parameters, so its body never runs),
and consequently no equivalent entry is stored under the
`ForwardRef('Dependency')` placeholder key: a dependency declared by that
forward name is not satisfied and resolves to `MissingDependencyError`. -/
theorem claim_C9 :
    regC9.2 = some Err.typeError ∧
    regC9.1.store.get (Key.str "Dependency") =
      [⟨Key.str "Dependency", .transient, .cls "AlternativeDependency", [],
        []⟩] ∧
    regC9.1.localns = [("Dependency", Key.str "Dependency")] ∧
    regC9.1.store.get (Key.fref "Dependency") = [] ∧
    resolve envEmpty 4 (Key.fref "Dependency") [] regC9.1 =
      .error (.missingDependency (Key.fref "Dependency")) :=
  ⟨rfl, rfl, rfl, rfl, rfl⟩

/-- **C10.** Container construction.  `Container.__init__` does append the
constant singleton self-registration under the key `Container` before
failing, but the `self.register(Container, instance=self)` call then raises
`TypeError` from the `ensure_forward_ref` arity mismatch, so no container
object (root or child) is ever produced and `resolve(Container)` is
unreachable. -/
theorem claim_C10 :
    (∀ (env : Env) (parent : Option St) (auto : Bool),
      containerInit env parent auto = .error Err.typeError) ∧
    (containerRegister envEmpty (stOf []) containerKey none
        (some Val.containerV) .transient []).1.store.get containerKey =
      [⟨containerKey, Scope.singleton, Builder.const Val.containerV, [],
        []⟩] := by
  refine ⟨?_, rfl⟩
  intro env parent auto
  cases parent <;> rfl

end Punq
